import Mathlib

/-!
Verification development for the transaction-dispatch core of the
offchain-sdk repository (src/core/transactor/sender/sender.go).

The Go code is shallowly embedded:

* `Transaction` models `*coretypes.Transaction` restricted to the
  attributes the sender reads (nonce, gas price, and an opaque payload
  standing for the encoded requests).  `Transaction.txHash` models the
  content hash `tx.Hash()`: a collision-free content hash is modelled as
  the identity on transaction values, so two transactions have the same
  hash exactly when they are the same value.
* The external collaborators (chain client, retry policy, replacement
  policy, factory) are injected as functions collected in `SenderDeps`.
  Each is indexed by the loop-iteration counter, which models stateful
  collaborators deterministically: any single-threaded behaviour of a
  collaborator is a function of how many times it has been called.
  Following the Go code, only `chainSend` (chain.SendTransaction) and
  `build` (factory.BuildTransactionFromRequests) receive the caller's
  context; the retry policy, the replacement policy and `time.Sleep`
  do not.
* One iteration of the `for` loop in `retryTxWithPolicy` is `senderStep`;
  the loop itself is `retryTxFuel`, recursion on explicit fuel (the Go
  loop may diverge if the policy always retries, so the embedding returns
  the observable event trace together with `none` when fuel runs out).
* Every externally observable action of the loop is recorded as an
  `Event`, so claims about which collaborators are invoked, in which
  order and with which arguments become statements about the trace.
* The in-flight registry (`sendingTxs sync.Map`) is a `Finset String`;
  `Store` is `insert`, `Delete` is `erase`, `Load` is membership.
-/

/-- A transaction error as classified by the policies.  `Option TxError`
stands for Go's `error`, with `none` for `nil`. -/
inductive TxError where
  | nonceTooLow
  | replaceUnderpriced
  | other (msg : String)
  deriving DecidableEq, Repr

/-- The attributes of `*coretypes.Transaction` that the sender reads. -/
structure Transaction where
  nonce : Nat
  gasPrice : Nat
  payload : String
  deriving DecidableEq, Repr

/-- The content hash `tx.Hash()`.  A collision-free hash is modelled as the
identity, so hash equality coincides with value equality. -/
def Transaction.txHash (tx : Transaction) : Transaction := tx

/-- Observable actions performed by one run of the retry loop, in order. -/
inductive Event where
  | broadcast (i : Nat) (tx : Transaction) (err : Option TxError)
  | sleep (backoff : Nat)
  | getNewCall (i : Nat) (tx : Transaction) (err : Option TxError)
  | updateTxModified (oldHash newHash : Transaction)
  | buildCall (i : Nat) (nonce : Nat) (req : Transaction)
      (res : Transaction) (err : Option TxError)
  deriving DecidableEq, Repr

/-- The injected collaborators of `Sender`, indexed by the iteration
counter of one retry loop.  `Ctx` is the caller's `context.Context`:
only `chainSend` and `build` receive it, exactly as in the Go code. -/
structure SenderDeps (Ctx : Type) where
  chainSend : Ctx → Nat → Transaction → Option TxError
  retryGet : Nat → Transaction → Option TxError → Bool × Nat
  getNew : Nat → Transaction → Option TxError → Transaction
  build : Ctx → Nat → Nat → Transaction → Transaction × Option TxError

/-- One iteration of the `for` loop of `retryTxWithPolicy`
(sender.go lines 70-104).  Returns the events of the iteration, `none`
when the loop returns (with the returned error), or `some tx2` when the
loop continues with `tx2`.  Mirroring the Go
`if tx, err = s.factory.BuildTransactionFromRequests(...); err != nil`,
the transaction returned by the factory is assigned to `tx`
unconditionally, whether or not the build reported an error. -/
def senderStep {Ctx : Type} (d : SenderDeps Ctx) (ctx : Ctx) (i : Nat)
    (tx : Transaction) : List Event × Option Transaction × Option TxError :=
  let err := d.chainSend ctx i tx
  let rb := d.retryGet i tx err
  if rb.1 = false then
    ([Event.broadcast i tx err], none, err)
  else
    let currTx := tx.txHash
    let tx1 := d.getNew i tx err
    let updEvents :=
      if tx1.txHash ≠ currTx then
        [Event.updateTxModified currTx tx1.txHash]
      else []
    let br := d.build ctx i tx1.nonce tx1
    ([Event.broadcast i tx err, Event.sleep rb.2, Event.getNewCall i tx err]
        ++ updEvents
        ++ [Event.buildCall i tx1.nonce tx1 br.1 br.2],
      some br.1, err)

/-- The retry loop of `retryTxWithPolicy`, as fuel-bounded iteration of
`senderStep` starting at iteration counter `i`.  Returns the event trace
(partial when fuel runs out) and `some err` for the Go return value
(`none` when the fuel bound was reached before the loop returned). -/
def retryTxFuel {Ctx : Type} (d : SenderDeps Ctx) (ctx : Ctx) :
    Nat → Nat → Transaction → List Event × Option (Option TxError)
  | 0, _, _ => ([], none)
  | fuel + 1, i, tx =>
    match senderStep d ctx i tx with
    | (evs, none, err) => (evs, some err)
    | (evs, some tx2, _) =>
      let rest := retryTxFuel d ctx fuel (i + 1) tx2
      (evs ++ rest.1, rest.2)

/-- `retryTxWithPolicy` (sender.go line 69): the retry loop started at
iteration 0. -/
def retryTxWithPolicy {Ctx : Type} (d : SenderDeps Ctx) (ctx : Ctx)
    (fuel : Nat) (tx : Transaction) : List Event × Option (Option TxError) :=
  retryTxFuel d ctx fuel 0 tx

/-- The in-flight registry `sendingTxs`: the set of message identifiers
currently being sent. -/
abbrev Registry := Finset String

/-- `s.sendingTxs.Store(msgID, struct{}{})` for each id, in order
(sender.go lines 52-54). -/
def storeAll (reg : Registry) (msgIDs : List String) : Registry :=
  msgIDs.foldl (fun r msgID => insert msgID r) reg

/-- `s.sendingTxs.Delete(msgID)` for each id, in order
(sender.go lines 59-61). -/
def deleteAll (reg : Registry) (msgIDs : List String) : Registry :=
  msgIDs.foldl (fun r msgID => r.erase msgID) reg

/-- `IsSending` (sender.go lines 42-45): membership test on the
registry. -/
def IsSending (reg : Registry) (msgID : String) : Bool :=
  decide (msgID ∈ reg)

/-- `SendTransaction` (sender.go lines 49-64): store every id, run the
retry loop, delete every id, return the loop's result together with the
final registry. -/
def SendTransaction {Ctx : Type} (d : SenderDeps Ctx) (ctx : Ctx)
    (fuel : Nat) (tx : Transaction) (msgIDs : List String) (reg : Registry) :
    (List Event × Option (Option TxError)) × Registry :=
  let reg1 := storeAll reg msgIDs
  let r := retryTxWithPolicy d ctx fuel tx
  let reg2 := deleteAll reg1 msgIDs
  (r, reg2)

/-- The broadcast attempts recorded in a trace, in order:
(iteration, transaction sent, error returned by the chain client). -/
def broadcasts (tr : List Event) : List (Nat × Transaction × Option TxError) :=
  tr.filterMap fun e =>
    match e with
    | Event.broadcast i tx err => some (i, tx, err)
    | _ => none

/-- The `time.Sleep` calls recorded in a trace. -/
def sleeps (tr : List Event) : List Nat :=
  tr.filterMap fun e =>
    match e with
    | Event.sleep b => some b
    | _ => none

/-- The replacement-policy invocations recorded in a trace. -/
def getNewCalls (tr : List Event) : List (Nat × Transaction × Option TxError) :=
  tr.filterMap fun e =>
    match e with
    | Event.getNewCall i tx err => some (i, tx, err)
    | _ => none

/-- The `UpdateTxModified` invocations recorded in a trace. -/
def updateCalls (tr : List Event) : List (Transaction × Transaction) :=
  tr.filterMap fun e =>
    match e with
    | Event.updateTxModified o n => some (o, n)
    | _ => none

/-- The factory invocations recorded in a trace:
(iteration, nonce argument, request, returned transaction, returned
error). -/
def buildCalls (tr : List Event) :
    List (Nat × Nat × Transaction × Transaction × Option TxError) :=
  tr.filterMap fun e =>
    match e with
    | Event.buildCall i n req res err => some (i, n, req, res, err)
    | _ => none

/-- Modelled from the spec: `DefaultTxReplacementPolicy.GetNew` is referenced
by `sender.go` but its code is not under src/.  Per the spec: NonceTooLow
refreshes the nonce to the current on-chain pending nonce; ReplaceUnderpriced
increases the gas price by a defined percentage step; other errors return the
same transaction unchanged. -/
def specGetNew (pendingNonce bumpPct : Nat) (tx : Transaction)
    (err : Option TxError) : Transaction :=
  match err with
  | some TxError.nonceTooLow => { tx with nonce := pendingNonce }
  | some TxError.replaceUnderpriced =>
      { tx with gasPrice := tx.gasPrice + tx.gasPrice * bumpPct / 100 }
  | _ => tx

/-- Modelled from the spec: `Factory.BuildTransactionFromRequests` is an
external collaborator whose code is not under src/.  Per the spec it builds
and signs a transaction for the given nonce and request set (idempotent
modulo nonce/signature); the request set passed by the sender is
`NewTxRequestFromTx tx`, so the built transaction carries the request's
gas price and payload at the given nonce. -/
def specBuild (nonce : Nat) (req : Transaction) : Transaction × Option TxError :=
  ({ req with nonce := nonce }, none)

/-- A concrete known-good signed transaction used in witnesses. -/
def goodTx : Transaction := ⟨5, 100, "req"⟩

/-- The value a failed Go build leaves in `tx`: the zero value the factory
returns alongside its error (a nil pointer in Go). -/
def failedBuildTx : Transaction := ⟨0, 0, ""⟩

/-- Collaborators for the build-failure scenario: the chain always rejects,
the policy retries once, the replacement policy returns the transaction
unchanged, and the factory fails, returning `failedBuildTx` with an
error. -/
def c1Deps : SenderDeps Unit where
  chainSend := fun _ _ _ => some (TxError.other "connection reset")
  retryGet := fun i _ _ => (decide (i < 1), 1)
  getNew := fun _ tx _ => tx
  build := fun _ _ _ _ => (failedBuildTx, some (TxError.other "sign failed"))

/-- Collaborators allowing exactly two retries before a terminal answer. -/
def attemptDeps : SenderDeps Unit where
  chainSend := fun _ i _ =>
    if i = 0 then some TxError.nonceTooLow else some (TxError.other "timeout")
  retryGet := fun i _ _ => (decide (i < 2), 7)
  getNew := fun _ tx _ => tx
  build := fun _ _ n req => ({ req with nonce := n }, none)

/-- Collaborators whose chain client fails once with ReplaceUnderpriced,
then accepts, while every factory build reports a signing error. -/
def lastErrorDeps : SenderDeps Unit where
  chainSend := fun _ i _ =>
    if i = 0 then some TxError.replaceUnderpriced else none
  retryGet := fun i _ _ => (decide (i = 0), 3)
  getNew := fun _ tx _ => tx
  build := fun _ _ n req => ({ req with nonce := n }, some (TxError.other "sig"))

/-- Collaborators whose chain client accepts immediately and whose retry
policy treats a nil error as terminal. -/
def successDeps : SenderDeps Unit where
  chainSend := fun _ _ _ => none
  retryGet := fun _ _ _ => (false, 0)
  getNew := fun _ tx _ => tx
  build := fun _ _ n req => ({ req with nonce := n }, none)

/-- Collaborators for a ReplaceUnderpriced lineage: every broadcast fails
with ReplaceUnderpriced, the replacement policy is the spec-modelled gas
bump, and the factory is the spec-modelled build. -/
def underpricedDeps : SenderDeps Unit where
  chainSend := fun _ _ _ => some TxError.replaceUnderpriced
  retryGet := fun i _ _ => (decide (i < 2), 10)
  getNew := fun _ tx e => specGetNew 5 10 tx e
  build := fun _ _ n req => specBuild n req

/-- Collaborators for a NonceTooLow scenario: the first broadcast fails with
NonceTooLow (on-chain pending nonce 9), the second is accepted. -/
def nonceDeps : SenderDeps Unit where
  chainSend := fun _ i _ =>
    if i = 0 then some TxError.nonceTooLow else none
  retryGet := fun i _ _ => (decide (i = 0), 2)
  getNew := fun _ tx e => specGetNew 9 10 tx e
  build := fun _ _ n req => specBuild n req

/-- Collaborators over a Bool context (a cancellation flag) that ignore the
context, witnessing that two contexts observed identically by the chain
client and the factory are indistinguishable to the loop. -/
def ctxDeps : SenderDeps Bool where
  chainSend := fun _ _ _ => some (TxError.other "e")
  retryGet := fun i _ _ => (decide (i < 1), 4)
  getNew := fun _ tx _ => tx
  build := fun _ _ n req => ({ req with nonce := n }, none)

/-- Membership in the registry after a sequence of `Store` calls. -/
theorem mem_storeAll {reg : Registry} {ids : List String} {a : String} :
    a ∈ storeAll reg ids ↔ a ∈ reg ∨ a ∈ ids := by
  induction ids generalizing reg with
  | nil => simp [storeAll]
  | cons x xs ih =>
    have : storeAll reg (x :: xs) = storeAll (insert x reg) xs := rfl
    rw [this, ih]
    simp [Finset.mem_insert]
    tauto

/-- Membership in the registry after a sequence of `Delete` calls. -/
theorem mem_deleteAll {reg : Registry} {ids : List String} {a : String} :
    a ∈ deleteAll reg ids ↔ a ∈ reg ∧ a ∉ ids := by
  induction ids generalizing reg with
  | nil => simp [deleteAll]
  | cons x xs ih =>
    have : deleteAll reg (x :: xs) = deleteAll (reg.erase x) xs := rfl
    rw [this, ih]
    simp [Finset.mem_erase]
    tauto

/-- The broadcast projection distributes over trace concatenation. -/
theorem broadcasts_append (l1 l2 : List Event) :
    broadcasts (l1 ++ l2) = broadcasts l1 ++ broadcasts l2 := by
  simp [broadcasts]

/-- When the retry policy answers "do not retry", the iteration broadcasts
once and returns the chain client's error. -/
theorem senderStep_not_retry {Ctx : Type} (d : SenderDeps Ctx) (ctx : Ctx)
    (i : Nat) (tx : Transaction)
    (h : (d.retryGet i tx (d.chainSend ctx i tx)).1 = false) :
    senderStep d ctx i tx =
      ([Event.broadcast i tx (d.chainSend ctx i tx)], none,
        d.chainSend ctx i tx) := by
  simp [senderStep, h]

/-- When the retry policy answers "retry", the iteration broadcasts once and
continues with the transaction returned by the factory. -/
theorem senderStep_retry_continue {Ctx : Type} (d : SenderDeps Ctx) (ctx : Ctx)
    (i : Nat) (tx : Transaction)
    (h : (d.retryGet i tx (d.chainSend ctx i tx)).1 = true) :
    ∃ evs tx2, senderStep d ctx i tx = (evs, some tx2, d.chainSend ctx i tx) ∧
      broadcasts evs = [(i, tx, d.chainSend ctx i tx)] := by
  refine ⟨(senderStep d ctx i tx).1,
    (d.build ctx i (d.getNew i tx (d.chainSend ctx i tx)).nonce
        (d.getNew i tx (d.chainSend ctx i tx))).1, ?_, ?_⟩
  · by_cases hh : (d.getNew i tx (d.chainSend ctx i tx)).txHash = tx.txHash <;>
      simp [senderStep, h, hh]
  · by_cases hh : (d.getNew i tx (d.chainSend ctx i tx)).txHash = tx.txHash <;>
      simp [senderStep, h, hh, broadcasts]

/-- Reassembling a continuing step from its continuation projection. -/
theorem senderStep_continue_eta {Ctx : Type} (d : SenderDeps Ctx) (ctx : Ctx)
    (i : Nat) (tx txNext : Transaction)
    (h : (senderStep d ctx i tx).2.1 = some txNext) :
    senderStep d ctx i tx
      = ((senderStep d ctx i tx).1, some txNext, (senderStep d ctx i tx).2.2) := by
  rw [← h]

/-- Unfolding the loop when the current iteration returns. -/
theorem retryTxFuel_succ_done {Ctx : Type} (d : SenderDeps Ctx) (ctx : Ctx)
    (f i : Nat) (tx : Transaction) (evs : List Event) (err : Option TxError)
    (h : senderStep d ctx i tx = (evs, none, err)) :
    retryTxFuel d ctx (f + 1) i tx = (evs, some err) := by
  simp [retryTxFuel, h]

/-- Unfolding the loop when the current iteration continues. -/
theorem retryTxFuel_succ_continue {Ctx : Type} (d : SenderDeps Ctx) (ctx : Ctx)
    (f i : Nat) (tx : Transaction) (evs : List Event) (tx2 : Transaction)
    (err : Option TxError)
    (h : senderStep d ctx i tx = (evs, some tx2, err)) :
    retryTxFuel d ctx (f + 1) i tx
      = (evs ++ (retryTxFuel d ctx f (i + 1) tx2).1,
          (retryTxFuel d ctx f (i + 1) tx2).2) := by
  simp [retryTxFuel, h]

/-- Every iteration performs exactly one broadcast, of the current
transaction, receiving the chain client's answer. -/
theorem broadcasts_senderStep {Ctx : Type} (d : SenderDeps Ctx) (ctx : Ctx)
    (i : Nat) (tx : Transaction) :
    broadcasts (senderStep d ctx i tx).1 = [(i, tx, d.chainSend ctx i tx)] := by
  by_cases h : (d.retryGet i tx (d.chainSend ctx i tx)).1 = true
  · by_cases hh : (d.getNew i tx (d.chainSend ctx i tx)).txHash = tx.txHash <;>
      simp [senderStep, h, hh, broadcasts]
  · rw [Bool.not_eq_true] at h
    simp [senderStep, h, broadcasts]

/-- A run with positive fuel starts by broadcasting the initial
transaction. -/
theorem broadcasts_retryTxFuel_head {Ctx : Type} (d : SenderDeps Ctx) (ctx : Ctx)
    (f i : Nat) (tx : Transaction) :
    ∃ rest, broadcasts (retryTxFuel d ctx (f + 1) i tx).1
      = (i, tx, d.chainSend ctx i tx) :: rest := by
  by_cases h : (d.retryGet i tx (d.chainSend ctx i tx)).1 = true
  · obtain ⟨evs, tx2, hstep, hbe⟩ := senderStep_retry_continue d ctx i tx h
    rw [retryTxFuel_succ_continue d ctx f i tx evs tx2 _ hstep, broadcasts_append,
      hbe]
    exact ⟨_, rfl⟩
  · rw [Bool.not_eq_true] at h
    rw [retryTxFuel_succ_done d ctx f i tx _ _ (senderStep_not_retry d ctx i tx h)]
    exact ⟨[], by simp [broadcasts]⟩

/-- The core counting lemma: a policy that retries the first `N` queries and
stops at query `N` yields exactly `N + 1` broadcasts, and the loop returns
the last broadcast's chain error. -/
theorem retryTxFuel_attempt_count {Ctx : Type} (d : SenderDeps Ctx) (ctx : Ctx)
    (N : Nat) :
    ∀ i fuel tx,
      (∀ j, j < N → ∀ tx' e, (d.retryGet (i + j) tx' e).1 = true) →
      (∀ tx' e, (d.retryGet (i + N) tx' e).1 = false) →
      N + 1 ≤ fuel →
      ∃ txN,
        (retryTxFuel d ctx fuel i tx).2 = some (d.chainSend ctx (i + N) txN) ∧
        (broadcasts (retryTxFuel d ctx fuel i tx).1).length = N + 1 ∧
        (broadcasts (retryTxFuel d ctx fuel i tx).1).getLast?
          = some (i + N, txN, d.chainSend ctx (i + N) txN) := by
  induction N with
  | zero =>
    intro i fuel tx _ hfalse hfuel
    obtain ⟨f, rfl⟩ : ∃ f, fuel = f + 1 := ⟨fuel - 1, by omega⟩
    have h0 : (d.retryGet i tx (d.chainSend ctx i tx)).1 = false := by
      simpa using hfalse tx (d.chainSend ctx i tx)
    rw [retryTxFuel_succ_done d ctx f i tx _ _ (senderStep_not_retry d ctx i tx h0)]
    exact ⟨tx, by simp, by simp [broadcasts], by simp [broadcasts]⟩
  | succ N ih =>
    intro i fuel tx htrue hfalse hfuel
    obtain ⟨f, rfl⟩ : ∃ f, fuel = f + 1 := ⟨fuel - 1, by omega⟩
    have h0 : (d.retryGet i tx (d.chainSend ctx i tx)).1 = true := by
      simpa using htrue 0 (by omega) tx (d.chainSend ctx i tx)
    obtain ⟨evs, tx2, hstep, hbe⟩ := senderStep_retry_continue d ctx i tx h0
    rw [retryTxFuel_succ_continue d ctx f i tx evs tx2 _ hstep]
    obtain ⟨txN, h1, h2, h3⟩ := ih (i + 1) f tx2
      (fun j hj tx' e => by
        have := htrue (j + 1) (by omega) tx' e
        simpa [show i + (j + 1) = i + 1 + j by omega] using this)
      (fun tx' e => by
        have := hfalse tx' e
        simpa [show i + (N + 1) = i + 1 + N by omega] using this)
      (by omega)
    have hiN : i + 1 + N = i + (N + 1) := by omega
    refine ⟨txN, ?_, ?_, ?_⟩
    · rw [← hiN]; simpa using h1
    · rw [broadcasts_append, List.length_append, hbe, h2]
      simp [Nat.add_comm]
    · have hne : broadcasts (retryTxFuel d ctx f (i + 1) tx2).1 ≠ [] := by
        intro hnil
        rw [hnil] at h3
        simp at h3
      rw [broadcasts_append, List.getLast?_append_of_ne_nil _ hne, ← hiN]
      exact h3

/-- The termination lemma: a policy that stops at query `N` (whatever it
answered before) makes the loop return, and the returned value is the chain
error of the last broadcast attempt. -/
theorem retryTxFuel_terminates {Ctx : Type} (d : SenderDeps Ctx) (ctx : Ctx)
    (N : Nat) :
    ∀ i fuel tx,
      (∀ tx' e, (d.retryGet (i + N) tx' e).1 = false) →
      N + 1 ≤ fuel →
      ∃ k txk,
        (retryTxFuel d ctx fuel i tx).2 = some (d.chainSend ctx k txk) ∧
        (broadcasts (retryTxFuel d ctx fuel i tx).1).getLast?
          = some (k, txk, d.chainSend ctx k txk) := by
  induction N with
  | zero =>
    intro i fuel tx hfalse hfuel
    obtain ⟨f, rfl⟩ : ∃ f, fuel = f + 1 := ⟨fuel - 1, by omega⟩
    have h0 : (d.retryGet i tx (d.chainSend ctx i tx)).1 = false := by
      simpa using hfalse tx (d.chainSend ctx i tx)
    rw [retryTxFuel_succ_done d ctx f i tx _ _ (senderStep_not_retry d ctx i tx h0)]
    exact ⟨i, tx, by simp, by simp [broadcasts]⟩
  | succ N ih =>
    intro i fuel tx hfalse hfuel
    obtain ⟨f, rfl⟩ : ∃ f, fuel = f + 1 := ⟨fuel - 1, by omega⟩
    by_cases h0 : (d.retryGet i tx (d.chainSend ctx i tx)).1 = true
    · obtain ⟨evs, tx2, hstep, hbe⟩ := senderStep_retry_continue d ctx i tx h0
      rw [retryTxFuel_succ_continue d ctx f i tx evs tx2 _ hstep]
      obtain ⟨k, txk, h1, h2⟩ := ih (i + 1) f tx2
        (fun tx' e => by
          have := hfalse tx' e
          simpa [show i + (N + 1) = i + 1 + N by omega] using this)
        (by omega)
      have hne : broadcasts (retryTxFuel d ctx f (i + 1) tx2).1 ≠ [] := by
        intro hnil
        rw [hnil] at h2
        simp at h2
      refine ⟨k, txk, by simpa using h1, ?_⟩
      rw [broadcasts_append, List.getLast?_append_of_ne_nil _ hne]
      exact h2
    · rw [Bool.not_eq_true] at h0
      rw [retryTxFuel_succ_done d ctx f i tx _ _ (senderStep_not_retry d ctx i tx h0)]
      exact ⟨i, tx, by simp, by simp [broadcasts]⟩

/-- Gas-price monotonicity along a ReplaceUnderpriced lineage, together with
the fact that the first broadcast of a run sends the initial transaction's
gas price. -/
theorem gasPrice_monotone_aux {Ctx : Type} (d : SenderDeps Ctx) (ctx : Ctx)
    (pending bump : Nat)
    (hchain : ∀ i tx, d.chainSend ctx i tx = some TxError.replaceUnderpriced)
    (hget : ∀ i tx e, d.getNew i tx e = specGetNew pending bump tx e)
    (hbuild : ∀ i n req, d.build ctx i n req = specBuild n req) :
    ∀ fuel i tx,
      List.Chain' (· ≤ ·)
        ((broadcasts (retryTxFuel d ctx fuel i tx).1).map
          fun b => b.2.1.gasPrice) ∧
      (∀ g, ((broadcasts (retryTxFuel d ctx fuel i tx).1).map
          fun b => b.2.1.gasPrice).head? = some g → g = tx.gasPrice) := by
  intro fuel
  induction fuel with
  | zero => simp [retryTxFuel, broadcasts]
  | succ f ih =>
    intro i tx
    by_cases h0 : (d.retryGet i tx (d.chainSend ctx i tx)).1 = true
    · have h0' := h0
      rw [hchain] at h0'
      have h21 : (senderStep d ctx i tx).2.1
          = some { tx with gasPrice := tx.gasPrice + tx.gasPrice * bump / 100 } := by
        simp [senderStep, hchain, h0', hget, hbuild, specGetNew, specBuild]
      rw [retryTxFuel_succ_continue d ctx f i tx _ _ _
        (senderStep_continue_eta d ctx i tx _ h21)]
      obtain ⟨ihc, ihh⟩ := ih (i + 1)
        { tx with gasPrice := tx.gasPrice + tx.gasPrice * bump / 100 }
      rw [broadcasts_append, broadcasts_senderStep, List.map_append]
      constructor
      · simp only [List.map_cons, List.map_nil, List.nil_append,
          List.cons_append]
        rw [List.chain'_cons']
        refine ⟨?_, ihc⟩
        intro y hy
        have := ihh y hy
        simp at this
        simp [this]
      · intro g hg
        simp at hg
        simp [hg]
    · rw [Bool.not_eq_true] at h0
      rw [retryTxFuel_succ_done d ctx f i tx _ _ (senderStep_not_retry d ctx i tx h0)]
      refine ⟨by simp [broadcasts], ?_⟩
      intro g hg
      simp [broadcasts] at hg
      simp [hg]

/-- C1: at the concrete failing input `c1Deps` the factory's build fails
during replacement; the retry loop then broadcasts the failed build's
returned value `failedBuildTx` on the next attempt instead of the last
known-good transaction `goodTx`, so the loop does not retain the last
known-good transaction on a build failure. -/
theorem buildFailure_carries_failed_result :
    (broadcasts (retryTxWithPolicy c1Deps () 2 goodTx).1).map (fun b => b.2.1)
        = [goodTx, failedBuildTx] ∧
    buildCalls (retryTxWithPolicy c1Deps () 2 goodTx).1
        = [(0, 5, goodTx, failedBuildTx, some (TxError.other "sign failed"))] ∧
    failedBuildTx ≠ goodTx := by
  refine ⟨by decide, by decide, by decide⟩

/-- C2: every id in `msgIDs` is in the registry once all stores ran and
before the retry loop starts; the registry returned by `SendTransaction` is
the stored-then-deleted registry whatever the loop did, so every id is
removed before the call returns on success and failure alike; `IsSending`
is false immediately after the call; and at every intermediate point
strictly between an id's store and its delete (any prefix of stores
containing it, the whole loop, and any prefix of deletes not yet reaching
it) `IsSending` is true. -/
theorem sendTransaction_registry_lifecycle {Ctx : Type} (d : SenderDeps Ctx)
    (ctx : Ctx) (fuel : Nat) (tx : Transaction) (msgIDs : List String)
    (reg : Registry) (msgID : String) (hmem : msgID ∈ msgIDs) :
    IsSending (storeAll reg msgIDs) msgID = true ∧
    (SendTransaction d ctx fuel tx msgIDs reg).2
        = deleteAll (storeAll reg msgIDs) msgIDs ∧
    IsSending (SendTransaction d ctx fuel tx msgIDs reg).2 msgID = false ∧
    (∀ p q, msgIDs = p ++ q → msgID ∈ p →
        IsSending (storeAll reg p) msgID = true) ∧
    (∀ p q, msgIDs = p ++ q → msgID ∉ p →
        IsSending (deleteAll (storeAll reg msgIDs) p) msgID = true) := by
  refine ⟨?_, rfl, ?_, ?_, ?_⟩
  · simp [IsSending, mem_storeAll, hmem]
  · simp [SendTransaction, IsSending, mem_deleteAll, hmem]
  · intro p q hpq hp
    simp [IsSending, mem_storeAll, hp]
  · intro p q hpq hp
    simp [IsSending, mem_deleteAll, mem_storeAll, hmem, hp]

theorem sendTransaction_registry_lifecycle_witness :
    IsSending (storeAll ∅ ["a", "b"]) "a" = true ∧
    (SendTransaction attemptDeps () 3 goodTx ["a", "b"] ∅).2
        = deleteAll (storeAll ∅ ["a", "b"]) ["a", "b"] ∧
    IsSending (SendTransaction attemptDeps () 3 goodTx ["a", "b"] ∅).2 "a"
        = false ∧
    (∀ p q, ["a", "b"] = p ++ q → "a" ∈ p →
        IsSending (storeAll ∅ p) "a" = true) ∧
    (∀ p q, ["a", "b"] = p ++ q → "a" ∉ p →
        IsSending (deleteAll (storeAll ∅ ["a", "b"]) p) "a" = true) :=
  sendTransaction_registry_lifecycle attemptDeps () 3 goodTx ["a", "b"] ∅ "a"
    (by decide)

/-- C3: when the retry policy answers retry for its first `N` queries and
stops at the `(N+1)`-th, `SendTransaction` performs exactly `N + 1`
broadcast attempts and returns the error produced by the `(N+1)`-th
broadcast unchanged. -/
theorem sendTransaction_attempt_count {Ctx : Type} (d : SenderDeps Ctx)
    (ctx : Ctx) (fuel N : Nat) (tx : Transaction) (msgIDs : List String)
    (reg : Registry)
    (htrue : ∀ j, j < N → ∀ tx' e, (d.retryGet j tx' e).1 = true)
    (hfalse : ∀ tx' e, (d.retryGet N tx' e).1 = false)
    (hfuel : N + 1 ≤ fuel) :
    ∃ txN,
      (broadcasts (SendTransaction d ctx fuel tx msgIDs reg).1.1).length = N + 1 ∧
      (SendTransaction d ctx fuel tx msgIDs reg).1.2
        = some (d.chainSend ctx N txN) ∧
      (broadcasts (SendTransaction d ctx fuel tx msgIDs reg).1.1).getLast?
        = some (N, txN, d.chainSend ctx N txN) := by
  obtain ⟨txN, h1, h2, h3⟩ := retryTxFuel_attempt_count d ctx N 0 fuel tx
    (fun j hj tx' e => by simpa using htrue j hj tx' e)
    (fun tx' e => by simpa using hfalse tx' e) hfuel
  exact ⟨txN, by simpa [SendTransaction, retryTxWithPolicy] using h2,
    by simpa [SendTransaction, retryTxWithPolicy] using h1,
    by simpa [SendTransaction, retryTxWithPolicy] using h3⟩

theorem sendTransaction_attempt_count_witness :
    ∃ txN,
      (broadcasts (SendTransaction attemptDeps () 3 goodTx ["a"] ∅).1.1).length
        = 2 + 1 ∧
      (SendTransaction attemptDeps () 3 goodTx ["a"] ∅).1.2
        = some (attemptDeps.chainSend () 2 txN) ∧
      (broadcasts (SendTransaction attemptDeps () 3 goodTx ["a"] ∅).1.1).getLast?
        = some (2, txN, attemptDeps.chainSend () 2 txN) :=
  sendTransaction_attempt_count attemptDeps () 3 2 goodTx ["a"] ∅
    (fun j hj _tx' _e => by simp [attemptDeps]; omega)
    (fun _tx' _e => by simp [attemptDeps])
    (by omega)

/-- C4: provided the retry policy answers no-retry at its query `N`
(whatever it answered before), the loop terminates within `N + 1` attempts
and the value crossing the `SendTransaction` boundary is exactly the chain
client's answer for the last broadcast attempt (nil on acceptance, the last
non-retryable error otherwise); in particular no intermediate retryable
error and no factory build error is ever the returned value. -/
theorem sendTransaction_returns_last_broadcast_error {Ctx : Type}
    (d : SenderDeps Ctx) (ctx : Ctx) (fuel N : Nat) (tx : Transaction)
    (msgIDs : List String) (reg : Registry)
    (hfalse : ∀ tx' e, (d.retryGet N tx' e).1 = false)
    (hfuel : N + 1 ≤ fuel) :
    ∃ k txk,
      (SendTransaction d ctx fuel tx msgIDs reg).1.2
        = some (d.chainSend ctx k txk) ∧
      (broadcasts (SendTransaction d ctx fuel tx msgIDs reg).1.1).getLast?
        = some (k, txk, d.chainSend ctx k txk) := by
  obtain ⟨k, txk, h1, h2⟩ := retryTxFuel_terminates d ctx N 0 fuel tx
    (fun tx' e => by simpa using hfalse tx' e) hfuel
  exact ⟨k, txk, by simpa [SendTransaction, retryTxWithPolicy] using h1,
    by simpa [SendTransaction, retryTxWithPolicy] using h2⟩

theorem sendTransaction_returns_last_broadcast_error_witness :
    ∃ k txk,
      (SendTransaction lastErrorDeps () 5 goodTx ["a", "b"] ∅).1.2
        = some (lastErrorDeps.chainSend () k txk) ∧
      (broadcasts
          (SendTransaction lastErrorDeps () 5 goodTx ["a", "b"] ∅).1.1).getLast?
        = some (k, txk, lastErrorDeps.chainSend () k txk) :=
  sendTransaction_returns_last_broadcast_error lastErrorDeps () 5 1 goodTx
    ["a", "b"] ∅ (fun _tx' _e => by simp [lastErrorDeps]) (by omega)

/-- C5: if the first broadcast returns nil and the retry policy classifies
a nil error as terminal `(false, 0)`, `SendTransaction` returns nil and the
trace holds exactly the one broadcast: no backoff sleep, no
replacement-policy call, no factory call. -/
theorem firstBroadcastSuccess_returns_nil {Ctx : Type} (d : SenderDeps Ctx)
    (ctx : Ctx) (fuel : Nat) (tx : Transaction) (msgIDs : List String)
    (reg : Registry)
    (hchain : d.chainSend ctx 0 tx = none)
    (hret : d.retryGet 0 tx none = (false, 0))
    (hfuel : 1 ≤ fuel) :
    (SendTransaction d ctx fuel tx msgIDs reg).1.2 = some none ∧
    (SendTransaction d ctx fuel tx msgIDs reg).1.1 = [Event.broadcast 0 tx none] ∧
    sleeps (SendTransaction d ctx fuel tx msgIDs reg).1.1 = [] ∧
    getNewCalls (SendTransaction d ctx fuel tx msgIDs reg).1.1 = [] ∧
    buildCalls (SendTransaction d ctx fuel tx msgIDs reg).1.1 = [] := by
  obtain ⟨f, rfl⟩ : ∃ f, fuel = f + 1 := ⟨fuel - 1, by omega⟩
  simp [SendTransaction, retryTxWithPolicy, retryTxFuel, senderStep, hchain,
    hret, sleeps, getNewCalls, buildCalls]

theorem firstBroadcastSuccess_returns_nil_witness :
    (SendTransaction successDeps () 1 goodTx ["a"] ∅).1.2 = some none ∧
    (SendTransaction successDeps () 1 goodTx ["a"] ∅).1.1
        = [Event.broadcast 0 goodTx none] ∧
    sleeps (SendTransaction successDeps () 1 goodTx ["a"] ∅).1.1 = [] ∧
    getNewCalls (SendTransaction successDeps () 1 goodTx ["a"] ∅).1.1 = [] ∧
    buildCalls (SendTransaction successDeps () 1 goodTx ["a"] ∅).1.1 = [] :=
  firstBroadcastSuccess_returns_nil successDeps () 1 goodTx ["a"] ∅ rfl rfl
    (by omega)

/-- C6: on a retried iteration the sender invokes `UpdateTxModified`
exactly when the replacement's hash differs from the hash recorded before
the replacement, and then exactly once with the old and new hashes; when
the hash is unchanged no lineage update is made. -/
theorem updateTxModified_iff_hash_changed {Ctx : Type} (d : SenderDeps Ctx)
    (ctx : Ctx) (i : Nat) (tx : Transaction)
    (hretry : (d.retryGet i tx (d.chainSend ctx i tx)).1 = true) :
    updateCalls (senderStep d ctx i tx).1 =
      if (d.getNew i tx (d.chainSend ctx i tx)).txHash = tx.txHash then []
      else [(tx.txHash, (d.getNew i tx (d.chainSend ctx i tx)).txHash)] := by
  by_cases h : (d.getNew i tx (d.chainSend ctx i tx)).txHash = tx.txHash
  · simp [senderStep, hretry, h, updateCalls]
  · simp [senderStep, hretry, h, updateCalls]

theorem updateTxModified_iff_hash_changed_witness :
    updateCalls (senderStep underpricedDeps () 0 goodTx).1 =
      if (underpricedDeps.getNew 0 goodTx
            (underpricedDeps.chainSend () 0 goodTx)).txHash = goodTx.txHash
      then []
      else [(goodTx.txHash,
        (underpricedDeps.getNew 0 goodTx
            (underpricedDeps.chainSend () 0 goodTx)).txHash)] :=
  updateTxModified_iff_hash_changed underpricedDeps () 0 goodTx (by decide)

/-- C7: if every broadcast in one lineage fails with ReplaceUnderpriced,
with the spec-modelled replacement policy and factory, the gas price of the
transaction broadcast at each attempt is non-decreasing across consecutive
attempts. -/
theorem replaceUnderpriced_gas_nondecreasing {Ctx : Type} (d : SenderDeps Ctx)
    (ctx : Ctx) (pending bump fuel : Nat) (tx : Transaction)
    (msgIDs : List String) (reg : Registry)
    (hchain : ∀ i tx', d.chainSend ctx i tx' = some TxError.replaceUnderpriced)
    (hget : ∀ i tx' e, d.getNew i tx' e = specGetNew pending bump tx' e)
    (hbuild : ∀ i n req, d.build ctx i n req = specBuild n req) :
    List.Chain' (· ≤ ·)
      ((broadcasts (SendTransaction d ctx fuel tx msgIDs reg).1.1).map
        fun b => b.2.1.gasPrice) := by
  have := (gasPrice_monotone_aux d ctx pending bump hchain hget hbuild fuel 0 tx).1
  simpa [SendTransaction, retryTxWithPolicy] using this

theorem replaceUnderpriced_gas_nondecreasing_witness :
    List.Chain' (· ≤ ·)
      ((broadcasts (SendTransaction underpricedDeps () 3 goodTx ["a"] ∅).1.1).map
        fun b => b.2.1.gasPrice) :=
  replaceUnderpriced_gas_nondecreasing underpricedDeps () 5 10 3 goodTx ["a"] ∅
    (fun _i _tx' => rfl) (fun _i _tx' _e => rfl) (fun _i _n _req => rfl)

/-- C8: if a broadcast fails with NonceTooLow and the loop retries, with the
spec-modelled replacement policy (refreshing to the on-chain pending nonce,
which NonceTooLow guarantees exceeds the transaction's nonce) and factory,
the transaction broadcast on the next attempt has a strictly different
nonce and a different hash. -/
theorem nonceTooLow_changes_nonce_and_hash {Ctx : Type} (d : SenderDeps Ctx)
    (ctx : Ctx) (pending bump i fuel : Nat) (tx : Transaction)
    (hchain : d.chainSend ctx i tx = some TxError.nonceTooLow)
    (hretry : (d.retryGet i tx (some TxError.nonceTooLow)).1 = true)
    (hget : d.getNew i tx (some TxError.nonceTooLow)
        = specGetNew pending bump tx (some TxError.nonceTooLow))
    (hbuild : ∀ n req, d.build ctx i n req = specBuild n req)
    (hnonce : tx.nonce < pending)
    (hfuel : 2 ≤ fuel) :
    ∃ tx2 e2 rest,
      broadcasts (retryTxFuel d ctx fuel i tx).1
        = (i, tx, some TxError.nonceTooLow) :: (i + 1, tx2, e2) :: rest ∧
      tx2.nonce ≠ tx.nonce ∧ tx2.txHash ≠ tx.txHash := by
  obtain ⟨f, rfl⟩ : ∃ f, fuel = f + 2 := ⟨fuel - 2, by omega⟩
  have h0 : (d.retryGet i tx (d.chainSend ctx i tx)).1 = true := by
    rw [hchain]; exact hretry
  have h0' := h0
  rw [hchain] at h0'
  have h21 : (senderStep d ctx i tx).2.1
      = some { tx with nonce := pending } := by
    simp [senderStep, hchain, h0', hget, hbuild, specGetNew, specBuild]
  rw [show f + 2 = (f + 1) + 1 by omega,
    retryTxFuel_succ_continue d ctx (f + 1) i tx _ _ _
      (senderStep_continue_eta d ctx i tx _ h21),
    broadcasts_append, broadcasts_senderStep, hchain]
  obtain ⟨rest, hrest⟩ :=
    broadcasts_retryTxFuel_head d ctx f (i + 1) { tx with nonce := pending }
  rw [hrest]
  refine ⟨{ tx with nonce := pending },
    d.chainSend ctx (i + 1) { tx with nonce := pending }, rest, rfl, ?_, ?_⟩
  · simp
    omega
  · intro hcon
    have := congrArg Transaction.nonce hcon
    simp [Transaction.txHash] at this
    omega

theorem nonceTooLow_changes_nonce_and_hash_witness :
    ∃ tx2 e2 rest,
      broadcasts (retryTxFuel nonceDeps () 2 0 goodTx).1
        = (0, goodTx, some TxError.nonceTooLow) :: (0 + 1, tx2, e2) :: rest ∧
      tx2.nonce ≠ goodTx.nonce ∧ tx2.txHash ≠ goodTx.txHash :=
  nonceTooLow_changes_nonce_and_hash nonceDeps () 9 10 0 2 goodTx
    (by decide) (by decide) (by decide) (fun _n _req => rfl) (by decide)
    (by omega)

/-- C9: the backoff wait is a plain timed sleep not connected to the
caller's context.  First, two contexts that the chain client and the
factory cannot tell apart produce identical traces and results, so
cancellation is observable only through the broadcast and build calls,
which are the only operations receiving the context.  Second, on every
retried iteration and under every context the full backoff sleep
recommended by the policy occurs and the iteration continues to the next
broadcast: no context state interrupts the wait or exits the loop. -/
theorem backoff_independent_of_context {Ctx : Type} (d : SenderDeps Ctx)
    (c1 c2 : Ctx)
    (hsend : ∀ i tx, d.chainSend c1 i tx = d.chainSend c2 i tx)
    (hbuild : ∀ i n req, d.build c1 i n req = d.build c2 i n req) :
    (∀ fuel tx, retryTxWithPolicy d c1 fuel tx = retryTxWithPolicy d c2 fuel tx) ∧
    (∀ (ctx : Ctx) (i : Nat) (tx : Transaction),
      (d.retryGet i tx (d.chainSend ctx i tx)).1 = true →
      Event.sleep (d.retryGet i tx (d.chainSend ctx i tx)).2
          ∈ (senderStep d ctx i tx).1 ∧
      (senderStep d ctx i tx).2.1 ≠ none) := by
  have hstep : ∀ i tx, senderStep d c1 i tx = senderStep d c2 i tx := by
    intro i tx
    simp only [senderStep, hsend, hbuild]
  constructor
  · intro fuel
    have : ∀ i tx, retryTxFuel d c1 fuel i tx = retryTxFuel d c2 fuel i tx := by
      induction fuel with
      | zero => intro i tx; rfl
      | succ f ih =>
        intro i tx
        simp only [retryTxFuel, hstep, ih]
    exact fun tx => this 0 tx
  · intro ctx i tx hretry
    constructor
    · by_cases hh : (d.getNew i tx (d.chainSend ctx i tx)).txHash = tx.txHash <;>
        simp [senderStep, hretry, hh]
    · by_cases hh : (d.getNew i tx (d.chainSend ctx i tx)).txHash = tx.txHash <;>
        simp [senderStep, hretry, hh]

theorem backoff_independent_of_context_witness :
    (∀ fuel tx, retryTxWithPolicy ctxDeps false fuel tx
        = retryTxWithPolicy ctxDeps true fuel tx) ∧
    (∀ (ctx : Bool) (i : Nat) (tx : Transaction),
      (ctxDeps.retryGet i tx (ctxDeps.chainSend ctx i tx)).1 = true →
      Event.sleep (ctxDeps.retryGet i tx (ctxDeps.chainSend ctx i tx)).2
          ∈ (senderStep ctxDeps ctx i tx).1 ∧
      (senderStep ctxDeps ctx i tx).2.1 ≠ none) :=
  backoff_independent_of_context ctxDeps false true (fun _i _tx => rfl)
    (fun _i _n _req => rfl)

/-- C10: `SendTransaction` changes registry membership only for
identifiers in `msgIDs`: any identifier outside `msgIDs` reports the same
`IsSending` value after the call as at entry, and with an empty `msgIDs`
the registry is entirely unchanged. -/
theorem sendTransaction_frame {Ctx : Type} (d : SenderDeps Ctx)
    (ctx : Ctx) (fuel : Nat) (tx : Transaction) (msgIDs : List String)
    (reg : Registry) (msgID : String) (hmem : msgID ∉ msgIDs) :
    IsSending (SendTransaction d ctx fuel tx msgIDs reg).2 msgID
        = IsSending reg msgID ∧
    (msgIDs = [] → (SendTransaction d ctx fuel tx msgIDs reg).2 = reg) := by
  constructor
  · simp [SendTransaction, IsSending, mem_deleteAll, mem_storeAll, hmem]
  · intro h
    subst h
    rfl

theorem sendTransaction_frame_witness :
    IsSending (SendTransaction attemptDeps () 3 goodTx ["a", "b"] {"z"}).2 "z"
        = IsSending {"z"} "z" ∧
    (["a", "b"] = [] →
      (SendTransaction attemptDeps () 3 goodTx ["a", "b"] {"z"}).2 = {"z"}) :=
  sendTransaction_frame attemptDeps () 3 goodTx ["a", "b"] {"z"} "z" (by decide)
